import Mathlib

/-!
# dt-exclusive-metric: the collection-and-publish pipeline

A shallow embedding of `graphql.go`, `main.go` and the fetch step of
`chrome-driver.go`.

Modelling conventions.

* Go `string` and `[]byte` values are Lean `String`s (the conversions
  `string(j)` and `[]byte` are the identity on the content).
* A Go `map[string]V` is an association list with `mapGet` / `mapSet`; a
  new key is appended, an existing key is overwritten in place.  The order
  in which `range` visits a map is a field of `GoEnv`.
* `float32` is a type parameter `F`; the conversion `int(x)` is a field of
  `GoEnv`, as are the standard-library functions the program calls
  (`fmt.Sprintf("%q", _)`, `json.Marshal`, `json.Unmarshal`).
* The network is an oracle `Client`: the outcome of the `j`-th
  `client.Do` of a `retryQuery` call is either no response (`none`) or a
  response with a status code and the bytes `io.ReadAll` reads from its body.
* `time.Duration` and `int64` values are `Int`s wrapped with `wrap64`.
* A panic of the Go program is a result value (`GoResult.panic`).
* Logging is not modelled.
-/

namespace DtExclusiveMetric

/-! ## Constants -/

/-- Constant `GraphQlEndpoint` of `graphql.go`. -/
def GraphQlEndpoint : String := "https://api.newrelic.com/graphql"

/-- The format `GraphQlQuery` of `graphql.go` applied to one `%s` argument:
`fmt.Sprintf(GraphQlQuery, guidList)`. -/
def GraphQlQuery (guidList : String) : String :=
  "\x7bactor \x7bentities(guids: [" ++ guidList ++ "]) \x7bname guid type\x7d\x7d\x7d"

/-- Constant `MetricEndoint` of `graphql.go`. -/
def MetricEndoint : String := "https://metric-api.newrelic.com/metric/v1"

/-- Constant `Interval` of `main.go` (milliseconds). -/
def Interval : Int := 3600000

/-- Constant `http.StatusOK`. -/
def StatusOK : Int := 200

/-- Constant `http.StatusAccepted`. -/
def StatusAccepted : Int := 202

/-- Two's-complement wrap-around of a 64 bit signed integer. -/
def wrap64 (x : Int) : Int := (x + 2 ^ 63) % 2 ^ 64 - 2 ^ 63

/-! ## Data model -/

/-- Type `GraphQlPayload` of `graphql.go`. -/
structure GraphQlPayload where
  Query : String
  deriving DecidableEq, Repr

/-- One element of `GraphQlResult.Data.Actor.Entities`. -/
structure GraphQlEntity where
  Name : String
  Guid : String
  deriving DecidableEq, Repr

/-- The struct `GraphQlResult.Data.Actor`. -/
structure GraphQlActor where
  Entities : List GraphQlEntity
  deriving DecidableEq, Repr

/-- The struct `GraphQlResult.Data`. -/
structure GraphQlData where
  Actor : GraphQlActor
  deriving DecidableEq, Repr

/-- Type `GraphQlResult` of `graphql.go`. -/
structure GraphQlResult where
  Data : GraphQlData
  deriving DecidableEq, Repr

/-- Type `Attributes` of `graphql.go`. -/
structure Attributes where
  Name : String
  Depth : Int
  Guid : String
  deriving DecidableEq, Repr

/-- Type `Metric` of `graphql.go`; `F` stands for `float32`. -/
structure Metric (F : Type) where
  Name : String
  /-- The field `Type` of the source (a reserved word here). -/
  MetricType : String
  Value : F
  Timestamp : Int
  Attributes : Attributes
  deriving DecidableEq, Repr

/-- Type `MetricPayload` of `graphql.go`. -/
structure MetricPayload (F : Type) where
  Metrics : List (Metric F)
  deriving DecidableEq, Repr

/-- Type `Entity` of `main.go`; `F` stands for `float32`. -/
structure Entity (F : Type) where
  Direction : String
  Depth : F
  CallPath : String
  Guid : String
  Count : Int
  ErrorCount : Int
  Duration : F
  ExclusiveDuration : F
  deriving DecidableEq, Repr

/-- Type `Details` of `main.go`. -/
structure Details where
  EntityGuid : String
  CurrentTime : Int
  StartTime : Int
  Duration : Int
  deriving DecidableEq, Repr

/-- A Go `map[string]V`. -/
abbrev GoMap (V : Type) := List (String × V)

/-- The lookup `v, ok := m[k]`: `none` when `ok` is false. -/
def mapGet {V : Type} : GoMap V → String → Option V
  | [], _ => none
  | (k', v) :: t, k => if k' = k then some v else mapGet t k

/-- The assignment `m[k] = v`. -/
def mapSet {V : Type} : GoMap V → String → V → GoMap V
  | [], k, v => [(k, v)]
  | (k', v') :: t, k, v => if k' = k then (k, v) :: t else (k', v') :: mapSet t k v

/-- Type `AccountData` of `main.go`, without the browser context and the
HTTP client handle (the client is the oracle `Client`). -/
structure AccountData (F : Type) where
  AccountId : String
  Guid : String
  GuidMap : GoMap String
  LicenseKey : String
  UserKey : String
  GraphQlHeaders : List String
  MetricHeaders : List String
  Details : Details
  Response : List (Entity F)
  SampleTime : Int
  PollInterval : Int
  deriving DecidableEq

/-- The Go runtime and standard-library operations the program relies on. -/
structure GoEnv (F : Type) where
  /-- The conversion `int(x)` of a `float32`. -/
  toInt : F → Int
  /-- The call `fmt.Sprintf("%q", s)`. -/
  quote : String → String
  /-- The bytes `json.Marshal` returns for a `GraphQlPayload`. -/
  marshalQuery : GraphQlPayload → String
  /-- The bytes `json.Marshal` returns for a `[]MetricPayload`. -/
  marshalMetrics : List (MetricPayload F) → String
  /-- The call `json.Unmarshal(b, &graphQlResult)` on a zero `graphQlResult`:
  the struct it leaves behind and whether the returned error is non-nil. -/
  unmarshal : String → GraphQlResult × Bool
  /-- The order in which `range` visits the entries of a map. -/
  rangeOrder : GoMap (Metric F) → GoMap (Metric F)
  /-- A `range` loop visits every entry of the map exactly once. -/
  rangeOrder_perm : ∀ m, (rangeOrder m).Perm m

/-! ## `retryQuery` -/

/-- A response object returned by `client.Do`: its status code and the bytes
`io.ReadAll` delivers from its body. -/
structure Response where
  StatusCode : Int
  Body : String
  deriving DecidableEq, Repr

/-- The network as seen by `retryQuery`: for a request (method, url, data,
headers) and the number `j` of the attempt, the response object `client.Do`
returns, `none` when it returns a nil response. -/
abbrev Client := String → String → String → List String → Nat → Option Response

/-- A run-time panic of the Go program. -/
inductive GoPanic where
  /-- Nil pointer dereference. -/
  | nilDereference
  /-- Index out of range. -/
  | indexOutOfRange
  deriving DecidableEq, Repr

/-- The result of a Go call that either returns a value or panics. -/
inductive GoResult (α : Type) where
  | ok (a : α)
  | panic (p : GoPanic)
  deriving DecidableEq, Repr

/-- Whether `strings.Split(h, ":")` has an element `params[1]`, that is,
whether the header `h` contains a colon. -/
def hasColon (h : String) : Bool := h.data.contains ':'

/-- The variables of the retry loop: the number of `client.Do` calls made,
the number of 500 ms sleeps, the variable `res`, and the panic that ended the
loop, if any. -/
structure RetryRun where
  attempts : Nat
  sleeps : Nat
  res : Option Response
  panicked : Option GoPanic
  deriving DecidableEq, Repr

/-- The loop `for j := 1; j <= 3; j++ { ... }` of `retryQuery`, from the
iteration with counter `j`.  The inner loop over `headers` evaluates
`params[1]` for every header and panics on one without a colon. -/
def retryLoop (Do : Nat → Option Response) (headers : List String) (j : Nat)
    (run : RetryRun) : RetryRun :=
  if j ≤ 3 then
    if headers.all hasColon then
      let res := Do j
      let run := { run with attempts := run.attempts + 1, res := res }
      match res with
      | some r =>
        if r.StatusCode = StatusOK ∨ r.StatusCode = StatusAccepted then
          run
        else
          retryLoop Do headers (j + 1) { run with sleeps := run.sleeps + 1 }
      | none => retryLoop Do headers (j + 1) { run with sleeps := run.sleeps + 1 }
    else
      { run with panicked := some .indexOutOfRange }
  else
    run
termination_by 4 - j

/-- What a call of `retryQuery` did and returned: `b` is the returned byte
slice, or the panic that ended the call (`params[1]` on a header without a
colon, `res.Body` on a nil `res`). -/
structure RetryResult where
  attempts : Nat
  sleeps : Nat
  b : GoResult String
  deriving DecidableEq, Repr

/-- Function `retryQuery` of `graphql.go`.  The request that is built
(method, url, body reader, headers) reaches the model only as the arguments
of the oracle; `http.NewRequest` is taken to succeed, as it does for the
method "POST" and the two endpoint constants the program passes. -/
def retryQuery (client : Client) (method url data : String) (headers : List String) :
    RetryResult :=
  let run := retryLoop (client method url data headers) headers 1 ⟨0, 0, none, none⟩
  match run.panicked with
  | some p => ⟨run.attempts, run.sleeps, .panic p⟩
  | none =>
    match run.res with
    | none => ⟨run.attempts, run.sleeps, .panic .nilDereference⟩
    | some res => ⟨run.attempts, run.sleeps, .ok res.Body⟩

/-- Method `makeClient` of `graphql.go` (the HTTP client handle is the
oracle `Client`). -/
def makeClient {F : Type} (data : AccountData F) : AccountData F :=
  { data with
    GraphQlHeaders := ["Content-Type:application/json", "API-Key:" ++ data.UserKey]
    MetricHeaders := ["Content-Type:application/json", "Api-Key:" ++ data.LicenseKey]
    GuidMap := [] }

/-! ## `makeMetrics` -/

/-- The variables `metricMap` and `guids` of `makeMetrics`. -/
structure Aggregation (F : Type) where
  metricMap : GoMap (Metric F)
  guids : List String

/-- The body of the loop `for _, entity := range data.Response` of
`makeMetrics` (lines 107-129). -/
def aggregateStep {F : Type} (env : GoEnv F) (data : AccountData F)
    (st : Aggregation F) (entity : Entity F) : Aggregation F :=
  match mapGet st.metricMap entity.Guid with
  | some _ => st
  | none =>
    let named := mapGet data.GuidMap entity.Guid
    let name := match named with
      | some name => name
      | none => entity.Guid
    let guids := match named with
      | some _ => st.guids
      | none => st.guids ++ [env.quote entity.Guid]
    { metricMap := mapSet st.metricMap entity.Guid
        { Name := "exclusiveDuration"
          MetricType := "gauge"
          Value := entity.ExclusiveDuration
          Timestamp := data.Details.CurrentTime
          Attributes :=
            { Name := name
              Depth := env.toInt entity.Depth
              Guid := entity.Guid } }
      guids := guids }

/-- The first loop of `makeMetrics`, started with an empty `metricMap` and a
nil `guids`. -/
def aggregate {F : Type} (env : GoEnv F) (data : AccountData F) : Aggregation F :=
  data.Response.foldl (aggregateStep env data) ⟨[], []⟩

/-- The body of the loop `for _, result := range graphQlResult.Data.Actor.Entities`
of `makeMetrics` (lines 152-161), on the pair of `data.GuidMap` and
`metricMap`. -/
def resolveStep {F : Type} (st : GoMap String × GoMap (Metric F))
    (result : GraphQlEntity) : GoMap String × GoMap (Metric F) :=
  let GuidMap := mapSet st.1 result.Guid result.Name
  match mapGet st.2 result.Guid with
  | some metric =>
    (GuidMap, mapSet st.2 result.Guid
      { metric with Attributes := { metric.Attributes with Name := result.Name } })
  | none => (GuidMap, st.2)

/-- The resolution loop of `makeMetrics` over the parsed entities. -/
def resolveLoop {F : Type} (entities : List GraphQlEntity)
    (st : GoMap String × GoMap (Metric F)) : GoMap String × GoMap (Metric F) :=
  entities.foldl resolveStep st

/-- One invocation of `retryQuery`: its arguments and what it did. -/
structure Call where
  method : String
  url : String
  data : String
  headers : List String
  result : RetryResult
  deriving DecidableEq, Repr

/-- Invoke `retryQuery` and record the invocation. -/
def invoke (client : Client) (method url data : String) (headers : List String) : Call :=
  ⟨method, url, data, headers, retryQuery client method url data headers⟩

/-- A piece of the program run: the `retryQuery` invocations it made, in
order, and its result. -/
structure Run (α : Type) where
  calls : List Call
  result : GoResult α

/-- The block `if len(guids) > 0 { ... }` of `makeMetrics` (lines 132-162):
the name lookup, the parse of its answer and the resolution loop. -/
def lookupNames {F : Type} (env : GoEnv F) (client : Client) (data : AccountData F)
    (agg : Aggregation F) : Run (GoMap String × GoMap (Metric F)) :=
  if agg.guids.length > 0 then
    let guidList := String.intercalate "," agg.guids
    let gQuery : GraphQlPayload := { Query := GraphQlQuery guidList }
    let j := env.marshalQuery gQuery
    let c := invoke client "POST" GraphQlEndpoint j data.GraphQlHeaders
    match c.result.b with
    | .panic p => ⟨[c], .panic p⟩
    | .ok b =>
      let graphQlResult := (env.unmarshal b).1
      ⟨[c], .ok (resolveLoop graphQlResult.Data.Actor.Entities (data.GuidMap, agg.metricMap))⟩
  else
    ⟨[], .ok (data.GuidMap, agg.metricMap)⟩

/-- The slice `metrics` built by `for _, metric := range metricMap`. -/
def collectMetrics {F : Type} (env : GoEnv F) (metricMap : GoMap (Metric F)) :
    List (Metric F) :=
  (env.rangeOrder metricMap).foldl (fun metrics kv => metrics ++ [kv.2]) []

/-- The publish step of `makeMetrics` (lines 164-178). -/
def publishMetrics {F : Type} (env : GoEnv F) (client : Client) (data : AccountData F)
    (metricMap : GoMap (Metric F)) : Run Unit :=
  let metrics := collectMetrics env metricMap
  if metrics.length = 0 then
    ⟨[], .ok ()⟩
  else
    let j := env.marshalMetrics [{ Metrics := metrics }]
    let c := invoke client "POST" MetricEndoint j data.MetricHeaders
    match c.result.b with
    | .panic p => ⟨[c], .panic p⟩
    | .ok _ => ⟨[c], .ok ()⟩

/-- Method `makeMetrics` of `graphql.go`: the `retryQuery` invocations it
makes and the account data it leaves behind. -/
def makeMetrics {F : Type} (env : GoEnv F) (client : Client) (data : AccountData F) :
    Run (AccountData F) :=
  let agg := aggregate env data
  let r := lookupNames env client data agg
  match r.result with
  | .panic p => ⟨r.calls, .panic p⟩
  | .ok (GuidMap, metricMap) =>
    let s := publishMetrics env client { data with GuidMap := GuidMap } metricMap
    match s.result with
    | .panic p => ⟨r.calls ++ s.calls, .panic p⟩
    | .ok _ => ⟨r.calls ++ s.calls, .ok { data with GuidMap := GuidMap }⟩

/-! ## The poll loop -/

/-- Method `postServiceEndpoint` of `chrome-driver.go`.  `currentTime` is
`time.Now().UnixMilli()`; `fetch` is the outcome of `chromedp.Run` on
`postEntitySummaries(data)`: `some byEntity` when the last action ran and
stored `res.Data.ByEntity`, `none` when `chromedp.Run` returned an error
before it. -/
def postServiceEndpoint {F : Type} (currentTime : Int) (fetch : Option (List (Entity F)))
    (data : AccountData F) : AccountData F :=
  let data := { data with
    Details :=
      { EntityGuid := data.Guid
        CurrentTime := currentTime
        StartTime := wrap64 (currentTime - Interval)
        Duration := Interval } }
  match fetch with
  | some byEntity => { data with Response := byEntity }
  | none => data

/-- The end of the loop body of `main` (lines 127-133): `some remainder` when
`time.Sleep(remainder)` is called, `none` when it is skipped.  `elapsed` is
`time.Now().Sub(startTime)`. -/
def pollSleep (PollInterval elapsed : Int) : Option Int :=
  let remainder := wrap64 (PollInterval - elapsed)
  if remainder > 0 then some remainder else none

/-- The time the poll loop sleeps at the end of a cycle. -/
def sleepTime (PollInterval elapsed : Int) : Int :=
  match pollSleep PollInterval elapsed with
  | some remainder => remainder
  | none => 0

/-- What the outside world supplies to one iteration of the poll loop. -/
structure CycleInput (F : Type) where
  /-- The value of `startTime.Unix()`. -/
  startUnix : Int
  /-- The value of `time.Now().UnixMilli()` in `postServiceEndpoint`. -/
  currentTime : Int
  /-- The outcome of the fetch through the browser session. -/
  fetch : Option (List (Entity F))
  /-- The network during this cycle. -/
  client : Client
  /-- The value of `time.Now().Sub(startTime)`. -/
  elapsed : Int

/-- What one iteration of the poll loop did. -/
structure CycleRun (F : Type) where
  calls : List Call
  slept : Option Int
  data : GoResult (AccountData F)

/-- One iteration of the loop `for { ... }` of `main` (lines 117-134). -/
def pollCycle {F : Type} (env : GoEnv F) (inp : CycleInput F) (data : AccountData F) :
    CycleRun F :=
  let data := { data with SampleTime := inp.startUnix }
  let data := postServiceEndpoint inp.currentTime inp.fetch data
  let r := makeMetrics env inp.client data
  match r.result with
  | .panic p => ⟨r.calls, none, .panic p⟩
  | .ok data => ⟨r.calls, pollSleep data.PollInterval inp.elapsed, .ok data⟩

/-- An attempt succeeds when a response came back with status 200 or 202. -/
def isSuccess : Option Response → Bool
  | some r => r.StatusCode = StatusOK ∨ r.StatusCode = StatusAccepted
  | none => false

/-- The keys of a map. -/
def mapKeys {V : Type} (m : GoMap V) : List String := m.map Prod.fst

/-- The sample the first loop of `makeMetrics` stores for a record whose
guid has no sample yet (the struct literal of lines 117-127). -/
def sampleOf {F : Type} (env : GoEnv F) (data : AccountData F) (entity : Entity F) :
    Metric F :=
  { Name := "exclusiveDuration"
    MetricType := "gauge"
    Value := entity.ExclusiveDuration
    Timestamp := data.Details.CurrentTime
    Attributes :=
      { Name := (mapGet data.GuidMap entity.Guid).getD entity.Guid
        Depth := env.toInt entity.Depth
        Guid := entity.Guid } }

/-- The `retryQuery` invocation of the name lookup of `makeMetrics`
(lines 133-141) for the loop result `agg`. -/
def lookupCall {F : Type} (env : GoEnv F) (client : Client) (data : AccountData F)
    (agg : Aggregation F) : Call :=
  invoke client "POST" GraphQlEndpoint
    (env.marshalQuery { Query := GraphQlQuery (String.intercalate "," agg.guids) })
    data.GraphQlHeaders

/-- The bytes a `makeMetrics` run hands to `json.Unmarshal`: `none` when the
name lookup is skipped or `retryQuery` panics. -/
def lookupBody {F : Type} (env : GoEnv F) (client : Client) (data : AccountData F) :
    Option String :=
  if (aggregate env data).guids.length > 0 then
    match (lookupCall env client data (aggregate env data)).result.b with
    | .ok b => some b
    | .panic _ => none
  else
    none

/-- The entities the resolution loop of a `makeMetrics` run iterates over. -/
def lookupEntities {F : Type} (env : GoEnv F) (client : Client) (data : AccountData F) :
    List GraphQlEntity :=
  match lookupBody env client data with
  | some b => (env.unmarshal b).1.Data.Actor.Entities
  | none => []

/-! ## Sample inputs -/

/-- A network that yields no response at the first attempt, status 500 at
the second and status 202 with body "done" from the third attempt on. -/
def flakyClient : Client := fun _ _ _ _ j =>
  if j = 1 then none else if j = 2 then some ⟨500, "busy"⟩ else some ⟨202, "done"⟩

/-- A network on which every attempt is a transport failure: `client.Do`
never returns a response object. -/
def deadClient : Client := fun _ _ _ _ _ => none

/-- A lookup answer naming B as "Bob". -/
def bobBody : String :=
  "\x7b\"data\":\x7b\"actor\":\x7b\"entities\":[\x7b\"name\":\"Bob\",\"guid\":\"B\"\x7d]\x7d\x7d\x7d"

/-- A lookup answer naming the guid A as "Alicia". -/
def aliciaBody : String :=
  "\x7b\"data\":\x7b\"actor\":\x7b\"entities\":[\x7b\"name\":\"Alicia\",\"guid\":\"A\"\x7d]\x7d\x7d\x7d"

/-- A lookup answer that is well-formed JSON but carries a number where the
name of C is expected. -/
def mistypedBody : String :=
  "\x7b\"data\":\x7b\"actor\":\x7b\"entities\":[\x7b\"name\":\"Bob\",\"guid\":\"B\"\x7d,\x7b\"name\":5,\"guid\":\"C\"\x7d]\x7d\x7d\x7d"

/-- A sample environment.  A `float32` is held in tenths (37 stands for 3.7)
and `int(x)` truncates toward zero; `%q` wraps a plain string in double
quotes; the marshalled forms are simple renderings; `json.Unmarshal` is given
as a table on the bodies used below: `bobBody` and `aliciaBody` decode
without error,
`mistypedBody` decodes as far as possible and reports the type error of the
field it skipped, and every other body is rejected with nothing stored. -/
def sampleEnv : GoEnv Int where
  toInt x := Int.tdiv x 10
  quote s := "\"" ++ s ++ "\""
  marshalQuery q := q.Query
  marshalMetrics ps :=
    String.intercalate ";" (ps.map fun p =>
      String.intercalate "," (p.Metrics.map fun m =>
        m.Attributes.Guid ++ "=" ++ m.Attributes.Name))
  unmarshal b :=
    if b = bobBody then (⟨⟨⟨[⟨"Bob", "B"⟩]⟩⟩⟩, false)
    else if b = aliciaBody then (⟨⟨⟨[⟨"Alicia", "A"⟩]⟩⟩⟩, false)
    else if b = mistypedBody then (⟨⟨⟨[⟨"Bob", "B"⟩, ⟨"", "C"⟩]⟩⟩⟩, true)
    else (⟨⟨⟨[]⟩⟩⟩, true)
  rangeOrder m := m
  rangeOrder_perm m := List.Perm.refl m

/-- A raw summary with the given guid, depth and exclusive duration. -/
def sampleEntity (guid : String) (depth exclusive : Int) : Entity Int :=
  { Direction := "outbound"
    Depth := depth
    CallPath := ""
    Guid := guid
    Count := 1
    ErrorCount := 0
    Duration := exclusive
    ExclusiveDuration := exclusive }

/-- Account data with the cache {A: "Alice"} and raw summaries with the
guids A, B, A, C. -/
def sampleData : AccountData Int :=
  { AccountId := "1"
    Guid := "ROOT"
    GuidMap := [("A", "Alice")]
    LicenseKey := "L"
    UserKey := "U"
    GraphQlHeaders := ["Content-Type:application/json", "API-Key:U"]
    MetricHeaders := ["Content-Type:application/json", "Api-Key:L"]
    Details := ⟨"ROOT", 5000000, 1400000, 3600000⟩
    Response :=
      [sampleEntity "A" 37 15, sampleEntity "B" 10 25, sampleEntity "A" 20 99,
        sampleEntity "C" 20 35]
    SampleTime := 5000
    PollInterval := 300000000000 }

/-- A network that answers the name lookup with status 200 and the given
body, and every other request with status 202, at the first attempt. -/
def answering (body : String) : Client := fun _ url _ _ _ =>
  if url = GraphQlEndpoint then some ⟨200, body⟩ else some ⟨202, "accepted"⟩

/-- Account data right after `makeClient`: an empty cache and no raw
summaries yet. -/
def freshData : AccountData Int :=
  { sampleData with GuidMap := [], Response := [] }

/-- A cycle whose fetch delivers one raw summary of B and whose name lookup
is answered with `bobBody`. -/
def firstCycle : CycleInput Int :=
  { startUnix := 5000
    currentTime := 5000000
    fetch := some [sampleEntity "B" 10 25]
    client := answering bobBody
    elapsed := 4000000000 }

/-- A later cycle whose fetch fails: `chromedp.Run` returns an error before
the response is stored. -/
def failedCycle : CycleInput Int :=
  { startUnix := 5300
    currentTime := 5300000
    fetch := none
    client := answering bobBody
    elapsed := 4000000000 }

/-! # Theorems -/

/-! ## Maps -/

theorem mapGet_mapSet {V : Type} (m : GoMap V) (k k' : String) (v : V) :
    mapGet (mapSet m k v) k' = if k = k' then some v else mapGet m k' := by
  induction m with
  | nil => simp [mapSet, mapGet]
  | cons p t ih =>
    obtain ⟨a, b⟩ := p
    by_cases h : a = k
    · subst h
      by_cases h' : a = k' <;> simp [mapSet, mapGet, h']
    · by_cases h' : a = k'
      · subst h'
        simp [mapSet, mapGet, h, Ne.symm h]
      · simp [mapSet, mapGet, h, h', ih]

theorem mapGet_eq_none_iff {V : Type} (m : GoMap V) (k : String) :
    mapGet m k = none ↔ k ∉ mapKeys m := by
  induction m with
  | nil => simp [mapGet, mapKeys]
  | cons p t ih =>
    obtain ⟨a, b⟩ := p
    by_cases h : a = k
    · simp [mapGet, mapKeys, h]
    · simp only [mapKeys] at ih
      simp [mapGet, mapKeys, h, ih, Ne.symm h]

theorem mapKeys_mapSet_of_none {V : Type} (m : GoMap V) (k : String) (v : V)
    (h : mapGet m k = none) : mapKeys (mapSet m k v) = mapKeys m ++ [k] := by
  induction m with
  | nil => simp [mapSet, mapKeys]
  | cons p t ih =>
    obtain ⟨a, b⟩ := p
    by_cases h' : a = k
    · simp [mapGet, h'] at h
    · simp only [mapGet, h', if_false] at h
      have := ih h
      simp only [mapKeys] at this
      simp [mapSet, mapKeys, h', this]

theorem mapKeys_mapSet_of_some {V : Type} (m : GoMap V) (k : String) (v w : V)
    (h : mapGet m k = some w) : mapKeys (mapSet m k v) = mapKeys m := by
  induction m with
  | nil => simp [mapGet] at h
  | cons p t ih =>
    obtain ⟨a, b⟩ := p
    by_cases h' : a = k
    · simp [mapSet, mapKeys, h']
    · simp only [mapGet, h', if_false] at h
      have := ih h
      simp only [mapKeys] at this
      simp [mapSet, mapKeys, h', this]

theorem mapKeys_length {V : Type} (m : GoMap V) : (mapKeys m).length = m.length := by
  simp [mapKeys]

/-! ## `makeMetrics`: the first loop -/

theorem aggregateStep_of_some {F : Type} (env : GoEnv F) (data : AccountData F)
    (st : Aggregation F) (e : Entity F) (m : Metric F)
    (h : mapGet st.metricMap e.Guid = some m) : aggregateStep env data st e = st := by
  simp [aggregateStep, h]

theorem aggregateStep_metricMap_of_none {F : Type} (env : GoEnv F) (data : AccountData F)
    (st : Aggregation F) (e : Entity F) (h : mapGet st.metricMap e.Guid = none) :
    (aggregateStep env data st e).metricMap =
      mapSet st.metricMap e.Guid (sampleOf env data e) := by
  cases hc : mapGet data.GuidMap e.Guid <;> simp [aggregateStep, h, hc, sampleOf]

theorem aggregateStep_guids_of_none {F : Type} (env : GoEnv F) (data : AccountData F)
    (st : Aggregation F) (e : Entity F) (h : mapGet st.metricMap e.Guid = none) :
    (aggregateStep env data st e).guids =
      match mapGet data.GuidMap e.Guid with
      | some _ => st.guids
      | none => st.guids ++ [env.quote e.Guid] := by
  cases hc : mapGet data.GuidMap e.Guid <;> simp [aggregateStep, h, hc]

/-- The sample map after the loop, from any loop state: a guid that had a
sample keeps it, another one gets the sample of its first record. -/
theorem aggregate_fold_get {F : Type} (env : GoEnv F) (data : AccountData F)
    (l : List (Entity F)) (st : Aggregation F) (g : String) :
    mapGet (l.foldl (aggregateStep env data) st).metricMap g =
      match mapGet st.metricMap g with
      | some m => some m
      | none => (l.find? (fun e => decide (e.Guid = g))).map (sampleOf env data) := by
  induction l generalizing st with
  | nil => cases h : mapGet st.metricMap g <;> simp [h]
  | cons e t ih =>
    rw [List.foldl_cons, ih]
    cases he : mapGet st.metricMap e.Guid with
    | some m => rw [aggregateStep_of_some env data st e m he]
                cases hg : mapGet st.metricMap g with
                | some m' => rfl
                | none =>
                  have : e.Guid ≠ g := by
                    intro h
                    rw [h] at he
                    rw [he] at hg
                    cases hg
                  simp [List.find?, this]
    | none =>
      rw [aggregateStep_metricMap_of_none env data st e he, mapGet_mapSet]
      by_cases h : e.Guid = g
      · subst h
        simp [he, List.find?]
      · simp [h, List.find?]

/-- The keys of the sample map after the loop, from any loop state. -/
theorem aggregate_fold_keys {F : Type} (env : GoEnv F) (data : AccountData F)
    (l : List (Entity F)) (st : Aggregation F) (hnd : (mapKeys st.metricMap).Nodup) :
    (mapKeys (l.foldl (aggregateStep env data) st).metricMap).Nodup ∧
    ∀ g, g ∈ mapKeys (l.foldl (aggregateStep env data) st).metricMap ↔
      g ∈ mapKeys st.metricMap ∨ g ∈ l.map (fun e => e.Guid) := by
  induction l generalizing st with
  | nil => simpa using hnd
  | cons e t ih =>
    rw [List.foldl_cons]
    cases he : mapGet st.metricMap e.Guid with
    | some m =>
      rw [aggregateStep_of_some env data st e m he]
      refine ⟨(ih st hnd).1, fun g => ?_⟩
      rw [(ih st hnd).2 g]
      have hmem : e.Guid ∈ mapKeys st.metricMap := by
        by_contra hc
        rw [(mapGet_eq_none_iff _ _).mpr hc] at he
        cases he
      constructor
      · rintro (h | h)
        · exact Or.inl h
        · exact Or.inr (List.mem_cons_of_mem _ h)
      · rintro (h | h)
        · exact Or.inl h
        · rcases List.mem_cons.mp h with h | h
          · exact Or.inl (h ▸ hmem)
          · exact Or.inr h
    | none =>
      have hk : mapKeys (aggregateStep env data st e).metricMap =
          mapKeys st.metricMap ++ [e.Guid] := by
        rw [aggregateStep_metricMap_of_none env data st e he,
          mapKeys_mapSet_of_none _ _ _ he]
      have hnot : e.Guid ∉ mapKeys st.metricMap := (mapGet_eq_none_iff _ _).mp he
      have hnd' : (mapKeys (aggregateStep env data st e).metricMap).Nodup := by
        rw [hk]
        exact List.Nodup.append hnd (List.nodup_singleton _) (by simpa using hnot)
      refine ⟨(ih _ hnd').1, fun g => ?_⟩
      rw [(ih _ hnd').2 g, hk]
      simp only [List.mem_append, List.mem_singleton, List.map_cons, List.mem_cons]
      tauto

/-- The display name the first loop gives a sample. -/
theorem aggregate_sample_name {F : Type} (env : GoEnv F) (data : AccountData F)
    (g : String) (m : Metric F) (hm : mapGet (aggregate env data).metricMap g = some m) :
    m.Attributes.Name = (mapGet data.GuidMap g).getD g := by
  have := aggregate_fold_get env data data.Response ⟨[], []⟩ g
  simp only [mapGet] at this
  unfold aggregate at hm
  rw [this] at hm
  cases hf : data.Response.find? (fun e => decide (e.Guid = g)) with
  | none => simp [hf] at hm
  | some e =>
    have hg : e.Guid = g := by simpa using List.find?_some hf
    simp only [hf, Option.map_some', Option.some.injEq] at hm
    rw [← hm]
    simp [sampleOf, hg]

/-- The resolution-needed list after the loop, from any loop state: the
quoted guids of the records that were given a sample and are not cached are
appended, each once. -/
theorem aggregate_fold_guids {F : Type} (env : GoEnv F) (data : AccountData F)
    (l : List (Entity F)) (st : Aggregation F) :
    ∃ L : List String,
      (l.foldl (aggregateStep env data) st).guids = st.guids ++ L.map env.quote ∧
      L.Nodup ∧
      ∀ g, g ∈ L ↔ (g ∈ l.map (fun e => e.Guid) ∧ mapGet st.metricMap g = none ∧
        mapGet data.GuidMap g = none) := by
  induction l generalizing st with
  | nil => exact ⟨[], by simp⟩
  | cons e t ih =>
    rw [List.foldl_cons]
    cases he : mapGet st.metricMap e.Guid with
    | some m =>
      rw [aggregateStep_of_some env data st e m he]
      obtain ⟨L, h1, h2, h3⟩ := ih st
      refine ⟨L, h1, h2, fun g => ?_⟩
      rw [h3 g]
      constructor
      · rintro ⟨a, b, c⟩
        exact ⟨List.mem_cons_of_mem _ a, b, c⟩
      · rintro ⟨a, b, c⟩
        refine ⟨?_, b, c⟩
        rcases List.mem_cons.mp a with a | a
        · rw [a, he] at b
          cases b
        · exact a
    | none =>
      obtain ⟨L, h1, h2, h3⟩ := ih (aggregateStep env data st e)
      have hm := aggregateStep_metricMap_of_none env data st e he
      have hg := aggregateStep_guids_of_none env data st e he
      have hget : ∀ g, mapGet (aggregateStep env data st e).metricMap g = none ↔
          (e.Guid ≠ g ∧ mapGet st.metricMap g = none) := by
        intro g
        rw [hm, mapGet_mapSet]
        by_cases h : e.Guid = g <;> simp [h]
      cases hc : mapGet data.GuidMap e.Guid with
      | some name =>
        rw [hc] at hg
        refine ⟨L, by rw [h1, hg], h2, fun g => ?_⟩
        rw [h3 g, hget g]
        constructor
        · rintro ⟨a, ⟨_, b⟩, c⟩
          exact ⟨List.mem_cons_of_mem _ a, b, c⟩
        · rintro ⟨a, b, c⟩
          have hne : e.Guid ≠ g := by
            intro h
            rw [h, c] at hc
            cases hc
          refine ⟨?_, ⟨hne, b⟩, c⟩
          rcases List.mem_cons.mp a with a | a
          · exact absurd a.symm hne
          · exact a
      | none =>
        rw [hc] at hg
        have hnot : e.Guid ∉ L := by
          intro h
          have := ((h3 e.Guid).mp h).2.1
          exact ((hget e.Guid).mp this).1 rfl
        refine ⟨e.Guid :: L, by rw [h1, hg]; simp, List.nodup_cons.mpr ⟨hnot, h2⟩,
          fun g => ?_⟩
        rw [List.mem_cons, h3 g, hget g]
        constructor
        · rintro (h | ⟨a, ⟨_, b⟩, c⟩)
          · subst h
            exact ⟨by simp, he, hc⟩
          · exact ⟨List.mem_cons_of_mem _ a, b, c⟩
        · rintro ⟨a, b, c⟩
          by_cases h : g = e.Guid
          · exact Or.inl h
          · refine Or.inr ⟨?_, ⟨fun h' => h h'.symm, b⟩, c⟩
            rcases List.mem_cons.mp a with a | a
            · exact absurd a h
            · exact a

/-- C1: the sample map built by the first loop of `makeMetrics` has exactly
one sample per distinct guid of the raw summaries (its size is the number of
distinct guids, its keys are duplicate-free and are exactly the guids that
occur), the sample of a guid carries the exclusive duration, the truncated
depth and the guid of the first record with that guid, and a record whose
guid already has a sample leaves the loop state unchanged. -/
theorem aggregate_one_sample_per_guid {F : Type} (env : GoEnv F) (data : AccountData F) :
    (aggregate env data).metricMap.length =
      ((data.Response.map (fun e => e.Guid)).dedup).length ∧
    (mapKeys (aggregate env data).metricMap).Nodup ∧
    (∀ g, g ∈ mapKeys (aggregate env data).metricMap ↔
      g ∈ data.Response.map (fun e => e.Guid)) ∧
    (∀ g e, data.Response.find? (fun x => decide (x.Guid = g)) = some e →
      mapGet (aggregate env data).metricMap g = some
        { Name := "exclusiveDuration"
          MetricType := "gauge"
          Value := e.ExclusiveDuration
          Timestamp := data.Details.CurrentTime
          Attributes :=
            { Name := (mapGet data.GuidMap g).getD g
              Depth := env.toInt e.Depth
              Guid := g } }) ∧
    (∀ (st : Aggregation F) (e : Entity F) (m : Metric F),
      mapGet st.metricMap e.Guid = some m → aggregateStep env data st e = st) := by
  have hk := aggregate_fold_keys env data data.Response ⟨[], []⟩ (by simp [mapKeys])
  have hmem : ∀ g, g ∈ mapKeys (aggregate env data).metricMap ↔
      g ∈ data.Response.map (fun e => e.Guid) := by
    intro g
    have := hk.2 g
    simpa [aggregate, mapKeys] using this
  refine ⟨?_, hk.1, hmem, ?_, fun st e m h => aggregateStep_of_some env data st e m h⟩
  · rw [← mapKeys_length]
    apply List.Perm.length_eq
    refine (List.perm_ext_iff_of_nodup hk.1 (List.nodup_dedup _)).mpr fun g => ?_
    rw [List.mem_dedup]
    exact hmem g
  · intro g e he
    have := aggregate_fold_get env data data.Response ⟨[], []⟩ g
    simp only [mapGet] at this
    unfold aggregate
    rw [this, he]
    have hg : e.Guid = g := by simpa using List.find?_some he
    simp [sampleOf, hg]

/-- C1, instance: with raw summaries A, B, A, C the sample of A is the one of
the first A record (value 15, depth 3.7 truncated to 3), not of the second. -/
theorem aggregate_one_sample_per_guid_witness :
    mapGet (aggregate sampleEnv sampleData).metricMap "A" = some
      { Name := "exclusiveDuration"
        MetricType := "gauge"
        Value := 15
        Timestamp := 5000000
        Attributes := { Name := "Alice", Depth := 3, Guid := "A" } } :=
  (aggregate_one_sample_per_guid sampleEnv sampleData).2.2.2.1 "A"
    (sampleEntity "A" 37 15) (by decide)

/-- C2: the resolution-needed list collected by the first loop of
`makeMetrics` holds (in quoted form) exactly the distinct guids of the raw
summaries that are absent from the cache, each once, and no cached guid; a
sample whose guid is cached has the cached name, a sample whose guid is not
cached has the guid itself as name.  With guids A, B, A, C and the cache
{A: "Alice"} there are the three samples A, B, C and the list is B, C. -/
theorem aggregate_resolution_list {F : Type} (env : GoEnv F) (data : AccountData F) :
    (∃ L : List String,
      (aggregate env data).guids = L.map env.quote ∧ L.Nodup ∧
      ∀ g, g ∈ L ↔
        (g ∈ data.Response.map (fun e => e.Guid) ∧ mapGet data.GuidMap g = none)) ∧
    (∀ g m name, mapGet (aggregate env data).metricMap g = some m →
      mapGet data.GuidMap g = some name → m.Attributes.Name = name) ∧
    (∀ g m, mapGet (aggregate env data).metricMap g = some m →
      mapGet data.GuidMap g = none → m.Attributes.Name = g) ∧
    (∀ (a b a2 c : Entity F) (d : AccountData F),
      a.Guid = "A" → b.Guid = "B" → a2.Guid = "A" → c.Guid = "C" →
      d.Response = [a, b, a2, c] → d.GuidMap = [("A", "Alice")] →
      mapKeys (aggregate env d).metricMap = ["A", "B", "C"] ∧
      (aggregate env d).guids = [env.quote "B", env.quote "C"]) := by
  have hname := aggregate_sample_name env data
  refine ⟨?_, ?_, ?_, ?_⟩
  · obtain ⟨L, h1, h2, h3⟩ := aggregate_fold_guids env data data.Response ⟨[], []⟩
    refine ⟨L, by simpa [aggregate] using h1, h2, fun g => ?_⟩
    rw [h3 g]
    simp [mapGet]
  · intro g m name hm hc
    rw [hname g m hm, hc]
    rfl
  · intro g m hm hc
    rw [hname g m hm, hc]
    rfl
  · intro a b a2 c d ha hb ha2 hc hr hm
    simp [aggregate, hr, aggregateStep, mapGet, mapSet, mapKeys, ha, hb, ha2, hc, hm]

/-- C2, instance: on the sample data (guids A, B, A, C, cache {A: "Alice"})
the sample map has the keys A, B, C and the resolution list is "B", "C". -/
theorem aggregate_resolution_list_witness :
    mapKeys (aggregate sampleEnv sampleData).metricMap = ["A", "B", "C"] ∧
    (aggregate sampleEnv sampleData).guids = ["\"B\"", "\"C\""] :=
  (aggregate_resolution_list sampleEnv sampleData).2.2.2
    (sampleEntity "A" 37 15) (sampleEntity "B" 10 25) (sampleEntity "A" 20 99)
    (sampleEntity "C" 20 35) sampleData rfl rfl rfl rfl rfl rfl

/-! ## `makeMetrics`: the resolution loop -/

theorem resolveLoop_nil {F : Type} (st : GoMap String × GoMap (Metric F)) :
    resolveLoop [] st = st := rfl

theorem resolveLoop_cons {F : Type} (e : GraphQlEntity) (t : List GraphQlEntity)
    (st : GoMap String × GoMap (Metric F)) :
    resolveLoop (e :: t) st = resolveLoop t (resolveStep st e) := rfl

theorem resolveLoop_append {F : Type} (l₁ l₂ : List GraphQlEntity)
    (st : GoMap String × GoMap (Metric F)) :
    resolveLoop (l₁ ++ l₂) st = resolveLoop l₂ (resolveLoop l₁ st) := by
  simp [resolveLoop, List.foldl_append]

theorem resolveStep_cache {F : Type} (st : GoMap String × GoMap (Metric F))
    (e : GraphQlEntity) : (resolveStep st e).1 = mapSet st.1 e.Guid e.Name := by
  unfold resolveStep
  cases mapGet st.2 e.Guid <;> rfl

theorem resolveStep_samples_of_some {F : Type} (st : GoMap String × GoMap (Metric F))
    (e : GraphQlEntity) (m : Metric F) (h : mapGet st.2 e.Guid = some m) :
    (resolveStep st e).2 =
      mapSet st.2 e.Guid { m with Attributes := { m.Attributes with Name := e.Name } } := by
  simp [resolveStep, h]

theorem resolveStep_samples_of_none {F : Type} (st : GoMap String × GoMap (Metric F))
    (e : GraphQlEntity) (h : mapGet st.2 e.Guid = none) : (resolveStep st e).2 = st.2 := by
  simp [resolveStep, h]

/-- One resolution step leaves the lookups at every other guid unchanged. -/
theorem resolveStep_other {F : Type} (st : GoMap String × GoMap (Metric F))
    (e : GraphQlEntity) (g : String) (h : e.Guid ≠ g) :
    mapGet (resolveStep st e).1 g = mapGet st.1 g ∧
    mapGet (resolveStep st e).2 g = mapGet st.2 g := by
  constructor
  · rw [resolveStep_cache, mapGet_mapSet]
    simp [h]
  · cases hm : mapGet st.2 e.Guid with
    | none => rw [resolveStep_samples_of_none st e hm]
    | some m =>
      rw [resolveStep_samples_of_some st e m hm, mapGet_mapSet]
      simp [h]

/-- One resolution step keeps the keys of the sample map. -/
theorem resolveStep_keys {F : Type} (st : GoMap String × GoMap (Metric F))
    (e : GraphQlEntity) : mapKeys (resolveStep st e).2 = mapKeys st.2 := by
  cases hm : mapGet st.2 e.Guid with
  | none => rw [resolveStep_samples_of_none st e hm]
  | some m =>
    rw [resolveStep_samples_of_some st e m hm]
    exact mapKeys_mapSet_of_some _ _ _ m hm

/-- One resolution step keeps the keys of the cache. -/
theorem resolveStep_cache_isSome {F : Type} (st : GoMap String × GoMap (Metric F))
    (e : GraphQlEntity) (g : String) (h : (mapGet st.1 g).isSome = true) :
    (mapGet (resolveStep st e).1 g).isSome = true := by
  rw [resolveStep_cache, mapGet_mapSet]
  by_cases hg : e.Guid = g <;> simp [hg, h]

theorem resolveLoop_other {F : Type} (l : List GraphQlEntity)
    (st : GoMap String × GoMap (Metric F)) (g : String) (h : ∀ x ∈ l, x.Guid ≠ g) :
    mapGet (resolveLoop l st).1 g = mapGet st.1 g ∧
    mapGet (resolveLoop l st).2 g = mapGet st.2 g := by
  induction l generalizing st with
  | nil => exact ⟨rfl, rfl⟩
  | cons e t ih =>
    rw [resolveLoop_cons]
    have h1 := ih (resolveStep st e) (fun x hx => h x (List.mem_cons_of_mem _ hx))
    have h2 := resolveStep_other st e g (h e (List.mem_cons_self _ _))
    exact ⟨h1.1.trans h2.1, h1.2.trans h2.2⟩

theorem resolveLoop_keys {F : Type} (l : List GraphQlEntity)
    (st : GoMap String × GoMap (Metric F)) :
    mapKeys (resolveLoop l st).2 = mapKeys st.2 := by
  induction l generalizing st with
  | nil => rfl
  | cons e t ih => rw [resolveLoop_cons, ih, resolveStep_keys]

theorem resolveLoop_cache_isSome {F : Type} (l : List GraphQlEntity)
    (st : GoMap String × GoMap (Metric F)) (g : String)
    (h : (mapGet st.1 g).isSome = true) :
    (mapGet (resolveLoop l st).1 g).isSome = true := by
  induction l generalizing st with
  | nil => exact h
  | cons e t ih =>
    rw [resolveLoop_cons]
    exact ih _ (resolveStep_cache_isSome st e g h)

/-- The resolution loop changes nothing but the display name of a sample. -/
theorem resolveLoop_fields {F : Type} (l : List GraphQlEntity)
    (st : GoMap String × GoMap (Metric F)) (g : String) (m : Metric F)
    (h : mapGet st.2 g = some m) :
    ∃ name, mapGet (resolveLoop l st).2 g =
      some { m with Attributes := { m.Attributes with Name := name } } := by
  induction l generalizing st m with
  | nil => exact ⟨m.Attributes.Name, h⟩
  | cons e t ih =>
    rw [resolveLoop_cons]
    by_cases hg : e.Guid = g
    · subst hg
      have hs : mapGet (resolveStep st e).2 e.Guid =
          some { m with Attributes := { m.Attributes with Name := e.Name } } := by
        rw [resolveStep_samples_of_some st e m h, mapGet_mapSet]
        simp
      obtain ⟨name, hn⟩ := ih _ _ hs
      exact ⟨name, hn⟩
    · have hs : mapGet (resolveStep st e).2 g = some m := by
        rw [(resolveStep_other st e g hg).2, h]
      exact ih _ _ hs

/-- The last entity of the answer with a given guid decides the cached name
and the display name of the sample of that guid. -/
theorem resolveLoop_last {F : Type} (pre post : List GraphQlEntity) (e : GraphQlEntity)
    (st : GoMap String × GoMap (Metric F)) (h : ∀ x ∈ post, x.Guid ≠ e.Guid) :
    mapGet (resolveLoop (pre ++ e :: post) st).1 e.Guid = some e.Name ∧
    ∀ m, mapGet st.2 e.Guid = some m →
      mapGet (resolveLoop (pre ++ e :: post) st).2 e.Guid =
        some { m with Attributes := { m.Attributes with Name := e.Name } } := by
  rw [resolveLoop_append, resolveLoop_cons]
  have hp := resolveLoop_other post (resolveStep (resolveLoop pre st) e) e.Guid h
  constructor
  · rw [hp.1, resolveStep_cache, mapGet_mapSet]
    simp
  · intro m hm
    obtain ⟨name, hn⟩ := resolveLoop_fields pre st e.Guid m hm
    rw [hp.2, resolveStep_samples_of_some _ e _ hn, mapGet_mapSet]
    simp

/-- C3: after the resolution loop of `makeMetrics`, a sample whose guid is
named by the lookup answer has the answer's name as display name and the cache
maps the guid to that name (when the answer names a guid more than once, its
last entry counts); a sample whose guid the answer does not name is untouched,
so a sample of an uncached guid keeps the guid as its name; the sample map has
the same keys as before; and a sample differs from the one before at most in
its display name. -/
theorem resolveLoop_backfills_names {F : Type} (entities : List GraphQlEntity)
    (cache : GoMap String) (metricMap : GoMap (Metric F)) :
    (∀ pre e post, entities = pre ++ e :: post → (∀ x ∈ post, x.Guid ≠ e.Guid) →
      mapGet (resolveLoop entities (cache, metricMap)).1 e.Guid = some e.Name ∧
      ∀ m, mapGet metricMap e.Guid = some m →
        mapGet (resolveLoop entities (cache, metricMap)).2 e.Guid =
          some { m with Attributes := { m.Attributes with Name := e.Name } }) ∧
    (∀ g, (∀ x ∈ entities, x.Guid ≠ g) →
      mapGet (resolveLoop entities (cache, metricMap)).2 g = mapGet metricMap g) ∧
    (∀ (env : GoEnv F) (data : AccountData F) (g : String) (m : Metric F),
      cache = data.GuidMap → metricMap = (aggregate env data).metricMap →
      mapGet metricMap g = some m → mapGet cache g = none →
      (∀ x ∈ entities, x.Guid ≠ g) →
      ∃ m', mapGet (resolveLoop entities (cache, metricMap)).2 g = some m' ∧
        m'.Attributes.Name = g) ∧
    mapKeys (resolveLoop entities (cache, metricMap)).2 = mapKeys metricMap ∧
    (resolveLoop entities (cache, metricMap)).2.length = metricMap.length ∧
    (∀ g m, mapGet metricMap g = some m →
      ∃ name, mapGet (resolveLoop entities (cache, metricMap)).2 g =
        some { m with Attributes := { m.Attributes with Name := name } }) := by
  refine ⟨?_, ?_, ?_, resolveLoop_keys _ _, ?_, ?_⟩
  · intro pre e post he hpost
    subst he
    exact resolveLoop_last pre post e (cache, metricMap) hpost
  · intro g hg
    exact (resolveLoop_other entities (cache, metricMap) g hg).2
  · intro env data g m hc hmm hm hnone hg
    refine ⟨m, ?_, ?_⟩
    · rw [(resolveLoop_other entities (cache, metricMap) g hg).2, hm]
    · subst hc hmm
      rw [aggregate_sample_name env data g m hm, hnone]
      rfl
  · rw [← mapKeys_length, resolveLoop_keys, mapKeys_length]
  · intro g m hm
    exact resolveLoop_fields entities (cache, metricMap) g m hm

/-- C3, instance: on the samples of the sample data (A named "Alice", B and C
named by their guids) an answer naming B as "Bob" makes the name of the B
sample "Bob" and caches it, while the C sample keeps the name "C". -/
theorem resolveLoop_backfills_names_witness :
    (mapGet (resolveLoop [⟨"Bob", "B"⟩]
        (sampleData.GuidMap, (aggregate sampleEnv sampleData).metricMap)).1 "B" = some "Bob" ∧
      ∀ m, mapGet (aggregate sampleEnv sampleData).metricMap "B" = some m →
        mapGet (resolveLoop [⟨"Bob", "B"⟩]
          (sampleData.GuidMap, (aggregate sampleEnv sampleData).metricMap)).2 "B" =
          some { m with Attributes := { m.Attributes with Name := "Bob" } }) ∧
    ∃ m', mapGet (resolveLoop [⟨"Bob", "B"⟩]
        (sampleData.GuidMap, (aggregate sampleEnv sampleData).metricMap)).2 "C" = some m' ∧
      m'.Attributes.Name = "C" :=
  ⟨(resolveLoop_backfills_names [⟨"Bob", "B"⟩] sampleData.GuidMap
      (aggregate sampleEnv sampleData).metricMap).1 [] ⟨"Bob", "B"⟩ [] rfl (by simp),
    (resolveLoop_backfills_names [⟨"Bob", "B"⟩] sampleData.GuidMap
      (aggregate sampleEnv sampleData).metricMap).2.2.1 sampleEnv sampleData "C"
      (sampleOf sampleEnv sampleData (sampleEntity "C" 20 35)) rfl rfl (by decide)
      (by decide) (by decide)⟩

/-! ## `makeMetrics`: lookup, publish and the whole method -/

theorem lookupNames_of_body {F : Type} (env : GoEnv F) (client : Client)
    (data : AccountData F) (b : String) (hb : lookupBody env client data = some b) :
    lookupNames env client data (aggregate env data) =
      ⟨[lookupCall env client data (aggregate env data)],
        .ok (resolveLoop (env.unmarshal b).1.Data.Actor.Entities
          (data.GuidMap, (aggregate env data).metricMap))⟩ := by
  unfold lookupBody at hb
  by_cases hg : (aggregate env data).guids.length > 0
  · rw [if_pos hg] at hb
    unfold lookupNames
    rw [if_pos hg]
    unfold lookupCall at hb
    cases hc : (invoke client "POST" GraphQlEndpoint
        (env.marshalQuery { Query := GraphQlQuery (String.intercalate "," (aggregate env data).guids) })
        data.GraphQlHeaders).result.b with
    | panic p => simp [hc] at hb
    | ok b' =>
      have : b' = b := by simpa [hc] using hb
      subst this
      simp [hc, lookupCall]
  · rw [if_neg hg] at hb
    cases hb

theorem lookupNames_result {F : Type} (env : GoEnv F) (client : Client)
    (data : AccountData F) (st : GoMap String × GoMap (Metric F))
    (h : (lookupNames env client data (aggregate env data)).result = .ok st) :
    st = resolveLoop (lookupEntities env client data)
      (data.GuidMap, (aggregate env data).metricMap) := by
  cases hb : lookupBody env client data with
  | some b =>
    rw [lookupNames_of_body env client data b hb] at h
    simp only [GoResult.ok.injEq] at h
    rw [← h]
    simp [lookupEntities, hb]
  | none =>
    have he : lookupEntities env client data = [] := by simp [lookupEntities, hb]
    rw [he, resolveLoop_nil]
    unfold lookupBody at hb
    unfold lookupNames at h
    by_cases hg : (aggregate env data).guids.length > 0
    · rw [if_pos hg] at hb h
      unfold lookupCall at hb
      cases hc : (invoke client "POST" GraphQlEndpoint
          (env.marshalQuery { Query := GraphQlQuery (String.intercalate "," (aggregate env data).guids) })
          data.GraphQlHeaders).result.b with
      | panic p => simp [hc] at h
      | ok b' => simp [hc] at hb
    · rw [if_neg hg] at h
      simp only [GoResult.ok.injEq] at h
      exact h.symm

/-- The account data a completed `makeMetrics` run leaves behind: the cache
is the one after the resolution loop, nothing else changes. -/
theorem makeMetrics_result {F : Type} (env : GoEnv F) (client : Client)
    (data d : AccountData F) (h : (makeMetrics env client data).result = .ok d) :
    d = { data with GuidMap := (resolveLoop (lookupEntities env client data)
      (data.GuidMap, (aggregate env data).metricMap)).1 } := by
  unfold makeMetrics at h
  simp only [] at h
  cases hl : (lookupNames env client data (aggregate env data)).result with
  | panic p => simp [hl] at h
  | ok st =>
    have hst := lookupNames_result env client data st hl
    obtain ⟨c, mm⟩ := st
    simp only [hl] at h
    cases hp : (publishMetrics env client { data with GuidMap := c } mm).result with
    | panic p => simp [hp] at h
    | ok u =>
      simp only [hp, GoResult.ok.injEq] at h
      rw [← h, ← hst]

/-! ## `retryQuery`: bounded retry -/

theorem retryLoop_stop (Do : Nat → Option Response) (headers : List String) (j : Nat)
    (run : RetryRun) (hh : headers.all hasColon = true)
    (hj : j ≤ 3) (hs : isSuccess (Do j) = true) :
    retryLoop Do headers j run = { run with attempts := run.attempts + 1, res := Do j } := by
  rw [retryLoop]
  cases h : Do j with
  | none => simp [h, isSuccess] at hs
  | some r =>
    have hr : r.StatusCode = StatusOK ∨ r.StatusCode = StatusAccepted := by
      simpa [h, isSuccess] using hs
    simp only [if_pos hj, if_pos hh, if_pos hr]

theorem retryLoop_continue (Do : Nat → Option Response) (headers : List String) (j : Nat)
    (run : RetryRun) (hh : headers.all hasColon = true)
    (hj : j ≤ 3) (hs : isSuccess (Do j) = false) :
    retryLoop Do headers j run =
      retryLoop Do headers (j + 1)
        { attempts := run.attempts + 1, sleeps := run.sleeps + 1, res := Do j,
          panicked := run.panicked } := by
  rw [retryLoop]
  cases h : Do j with
  | none => simp only [if_pos hj, if_pos hh]
  | some r =>
    have hr : ¬ (r.StatusCode = StatusOK ∨ r.StatusCode = StatusAccepted) := by
      simpa [h, isSuccess] using hs
    simp only [if_pos hj, if_pos hh, if_neg hr]

theorem retryLoop_exit (Do : Nat → Option Response) (headers : List String) (j : Nat)
    (run : RetryRun) (hj : 3 < j) : retryLoop Do headers j run = run := by
  rw [retryLoop]
  simp [Nat.not_le.mpr hj]

theorem retryLoop_bad_header (Do : Nat → Option Response) (headers : List String) (j : Nat)
    (run : RetryRun) (hh : ¬ headers.all hasColon = true) (hj : j ≤ 3) :
    retryLoop Do headers j run = { run with panicked := some .indexOutOfRange } := by
  rw [retryLoop]
  simp only [if_pos hj, if_neg hh]

theorem retryLoop_attempts_le (Do : Nat → Option Response) (headers : List String) (j : Nat)
    (run : RetryRun) :
    (retryLoop Do headers j run).attempts ≤ run.attempts + (4 - j) := by
  generalize h : 4 - j = n
  induction n generalizing j run with
  | zero =>
    rw [retryLoop_exit Do headers j run (by omega)]
    simp
  | succ n ih =>
    have hj : j ≤ 3 := by omega
    by_cases hh : headers.all hasColon = true
    · cases hs : isSuccess (Do j) with
      | true =>
        rw [retryLoop_stop Do headers j run hh hj hs]
        simp
      | false =>
        rw [retryLoop_continue Do headers j run hh hj hs]
        have := ih (j + 1)
          { attempts := run.attempts + 1, sleeps := run.sleeps + 1, res := Do j,
            panicked := run.panicked } (by omega)
        simp at this
        omega
    · rw [retryLoop_bad_header Do headers j run hh hj]
      simp

/-- The headers `makeClient` installs all contain a colon. -/
theorem makeClient_headers {F : Type} (data : AccountData F) :
    (makeClient data).GraphQlHeaders.all hasColon = true ∧
    (makeClient data).MetricHeaders.all hasColon = true := by
  constructor <;> simp [makeClient, hasColon, String.data_append]

/-- C4: if the k-th attempt of `retryQuery` (1 ≤ k ≤ 3) is the first one that
yields a response with status 200 or 202, then `retryQuery` makes exactly k
attempts, sleeps only after the k - 1 failed ones, and returns the body of the
k-th response (the headers being of the form name:value, so that requests
are built at all); and whatever the network and the headers are, it makes at
most 3 attempts. -/
theorem retryQuery_first_success (client : Client) (method url data : String)
    (headers : List String) :
    (retryQuery client method url data headers).attempts ≤ 3 ∧
    ∀ (k : Nat) (r : Response), headers.all hasColon = true → 1 ≤ k → k ≤ 3 →
      client method url data headers k = some r →
      (r.StatusCode = 200 ∨ r.StatusCode = 202) →
      (∀ (j : Nat) (q : Response), 1 ≤ j → j < k →
        client method url data headers j = some q →
        q.StatusCode ≠ 200 ∧ q.StatusCode ≠ 202) →
      retryQuery client method url data headers =
        { attempts := k, sleeps := k - 1, b := .ok r.Body } := by
  constructor
  · have h := retryLoop_attempts_le (client method url data headers) headers 1
      ⟨0, 0, none, none⟩
    unfold retryQuery
    simp only []
    split
    · simpa using h
    · split <;> simpa using h
  · intro k r hh hk1 hk3 hr hst hfail
    have hsucc : isSuccess (client method url data headers k) = true := by
      simp [hr, isSuccess, StatusOK, StatusAccepted, hst]
    have hfalse : ∀ j, 1 ≤ j → j < k →
        isSuccess (client method url data headers j) = false := by
      intro j h1 h2
      cases hq : client method url data headers j with
      | none => simp [isSuccess]
      | some q =>
        have := hfail j q h1 h2 hq
        simp [isSuccess, StatusOK, StatusAccepted, this.1, this.2]
    unfold retryQuery
    obtain rfl | rfl | rfl : k = 1 ∨ k = 2 ∨ k = 3 := by omega
    · rw [retryLoop_stop _ _ 1 _ hh (by omega) hsucc]
      simp [hr]
    · rw [retryLoop_continue _ _ 1 _ hh (by omega) (hfalse 1 (by omega) (by omega)),
        retryLoop_stop _ _ 2 _ hh (by omega) hsucc]
      simp [hr]
    · rw [retryLoop_continue _ _ 1 _ hh (by omega) (hfalse 1 (by omega) (by omega)),
        retryLoop_continue _ _ 2 _ hh (by omega) (hfalse 2 (by omega) (by omega)),
        retryLoop_stop _ _ 3 _ hh (by omega) hsucc]
      simp [hr]

/-- C4, instance: no response, then status 500, then status 202 with body
"done": three attempts, two sleeps, and "done" is returned. -/
theorem retryQuery_first_success_witness :
    retryQuery flakyClient "POST" MetricEndoint "" sampleData.MetricHeaders =
      { attempts := 3, sleeps := 2, b := .ok "done" } :=
  (retryQuery_first_success flakyClient "POST" MetricEndoint "" sampleData.MetricHeaders).2
    3 ⟨202, "done"⟩ (by decide) (by decide) (by decide) (by decide) (by decide)
    (by
      intro j q h1 h3 hq
      obtain rfl | rfl : j = 1 ∨ j = 2 := by omega
      · simp [flakyClient] at hq
      · have : q = ⟨500, "busy"⟩ := by simpa [flakyClient] using hq.symm
        subst this
        decide)

/-- C5, the code at the failing input: with the headers `makeClient` installs,
when no attempt obtains a response object, `retryQuery` makes three attempts
(and three sleeps) and then dereferences the nil response: it panics instead
of returning an error. -/
theorem retryQuery_no_response_panics {F : Type} (data : AccountData F)
    (method url body : String) :
    retryQuery deadClient method url body (makeClient data).GraphQlHeaders =
      { attempts := 3, sleeps := 3, b := .panic .nilDereference } ∧
    retryQuery deadClient method url body (makeClient data).MetricHeaders =
      { attempts := 3, sleeps := 3, b := .panic .nilDereference } := by
  have key : ∀ headers : List String, headers.all hasColon = true →
      retryQuery deadClient method url body headers =
        { attempts := 3, sleeps := 3, b := .panic .nilDereference } := by
    intro headers hh
    unfold retryQuery
    rw [retryLoop_continue _ _ 1 _ hh (by omega) (by simp [deadClient, isSuccess]),
      retryLoop_continue _ _ 2 _ hh (by omega) (by simp [deadClient, isSuccess]),
      retryLoop_continue _ _ 3 _ hh (by omega) (by simp [deadClient, isSuccess]),
      retryLoop_exit _ _ 4 _ (by omega)]
    simp [deadClient]
  exact ⟨key _ (makeClient_headers data).1, key _ (makeClient_headers data).2⟩

/-! ## Evaluation on the sample network -/

theorem retryQuery_answering (body method url data : String) (headers : List String)
    (hh : headers.all hasColon = true) :
    retryQuery (answering body) method url data headers =
      { attempts := 1, sleeps := 0,
        b := .ok (if url = GraphQlEndpoint then body else "accepted") } := by
  unfold retryQuery
  by_cases h : url = GraphQlEndpoint
  · rw [retryLoop_stop _ _ 1 _ hh (by omega) (by simp [answering, h, isSuccess, StatusOK])]
    simp [answering, h]
  · rw [retryLoop_stop _ _ 1 _ hh (by omega)
      (by simp [answering, h, isSuccess, StatusOK, StatusAccepted])]
    simp [answering, h]

theorem lookupCall_answering {F : Type} (env : GoEnv F) (body : String)
    (data : AccountData F) (agg : Aggregation F)
    (hq : data.GraphQlHeaders.all hasColon = true) :
    lookupCall env (answering body) data agg =
      { method := "POST"
        url := GraphQlEndpoint
        data := env.marshalQuery { Query := GraphQlQuery (String.intercalate "," agg.guids) }
        headers := data.GraphQlHeaders
        result := { attempts := 1, sleeps := 0, b := .ok body } } := by
  simp [lookupCall, invoke, retryQuery_answering _ _ _ _ _ hq]

theorem publishMetrics_answering {F : Type} (env : GoEnv F) (body : String)
    (data : AccountData F) (metricMap : GoMap (Metric F))
    (hm : data.MetricHeaders.all hasColon = true) :
    publishMetrics env (answering body) data metricMap =
      if (collectMetrics env metricMap).length = 0 then ⟨[], .ok ()⟩
      else
        ⟨[{ method := "POST"
            url := MetricEndoint
            data := env.marshalMetrics [{ Metrics := collectMetrics env metricMap }]
            headers := data.MetricHeaders
            result := { attempts := 1, sleeps := 0, b := .ok "accepted" } }], .ok ()⟩ := by
  have hne : MetricEndoint ≠ GraphQlEndpoint := by decide
  simp only [publishMetrics, invoke, retryQuery_answering _ _ _ _ _ hm, if_neg hne]

theorem publishMetrics_answering_result {F : Type} (env : GoEnv F) (body : String)
    (data : AccountData F) (metricMap : GoMap (Metric F))
    (hm : data.MetricHeaders.all hasColon = true) :
    (publishMetrics env (answering body) data metricMap).result = .ok () := by
  rw [publishMetrics_answering env body data metricMap hm]
  split <;> rfl

theorem lookupBody_answering_of_guids {F : Type} (env : GoEnv F) (body : String)
    (data : AccountData F) (hg : (aggregate env data).guids.length > 0)
    (hq : data.GraphQlHeaders.all hasColon = true) :
    lookupBody env (answering body) data = some body := by
  unfold lookupBody
  rw [if_pos hg, lookupCall_answering env body data _ hq]

theorem makeMetrics_answering_of_guids {F : Type} (env : GoEnv F) (body : String)
    (data : AccountData F) (hg : (aggregate env data).guids.length > 0)
    (hq : data.GraphQlHeaders.all hasColon = true)
    (hm : data.MetricHeaders.all hasColon = true) :
    makeMetrics env (answering body) data =
      ⟨lookupCall env (answering body) data (aggregate env data) ::
          (publishMetrics env (answering body) data
            (resolveLoop (env.unmarshal body).1.Data.Actor.Entities
              (data.GuidMap, (aggregate env data).metricMap)).2).calls,
        .ok { data with
          GuidMap := (resolveLoop (env.unmarshal body).1.Data.Actor.Entities
            (data.GuidMap, (aggregate env data).metricMap)).1 }⟩ := by
  have hp := publishMetrics_answering_result env body
    { data with
      GuidMap := (resolveLoop (env.unmarshal body).1.Data.Actor.Entities
        (data.GuidMap, (aggregate env data).metricMap)).1 }
    (resolveLoop (env.unmarshal body).1.Data.Actor.Entities
      (data.GuidMap, (aggregate env data).metricMap)).2 hm
  simp only [makeMetrics,
    lookupNames_of_body _ _ _ body (lookupBody_answering_of_guids env body data hg hq), hp]
  rfl

theorem makeMetrics_answering_of_cached {F : Type} (env : GoEnv F) (body : String)
    (data : AccountData F) (hg : (aggregate env data).guids = [])
    (hm : data.MetricHeaders.all hasColon = true) :
    makeMetrics env (answering body) data =
      ⟨(publishMetrics env (answering body) data (aggregate env data).metricMap).calls,
        .ok data⟩ := by
  have hl : lookupNames env (answering body) data (aggregate env data) =
      ⟨[], .ok (data.GuidMap, (aggregate env data).metricMap)⟩ := by
    simp [lookupNames, hg]
  have hp := publishMetrics_answering_result env body { data with GuidMap := data.GuidMap }
    (aggregate env data).metricMap hm
  simp only [makeMetrics, hl, hp]
  rfl

theorem lookupBody_answering (body : String) :
    lookupBody sampleEnv (answering body) sampleData = some body :=
  lookupBody_answering_of_guids sampleEnv body sampleData (by decide) (by decide)

theorem makeMetrics_answering (body : String) :
    makeMetrics sampleEnv (answering body) sampleData =
      ⟨lookupCall sampleEnv (answering body) sampleData (aggregate sampleEnv sampleData) ::
          (publishMetrics sampleEnv (answering body) sampleData
            (resolveLoop (sampleEnv.unmarshal body).1.Data.Actor.Entities
              (sampleData.GuidMap, (aggregate sampleEnv sampleData).metricMap)).2).calls,
        .ok { sampleData with
          GuidMap := (resolveLoop (sampleEnv.unmarshal body).1.Data.Actor.Entities
            (sampleData.GuidMap, (aggregate sampleEnv sampleData).metricMap)).1 }⟩ :=
  makeMetrics_answering_of_guids sampleEnv body sampleData (by decide) (by decide) (by decide)

/-! ## The name cache -/

/-- C7, counterexample: the cache maps A to "Alice"; a lookup answer that
names A as "Alicia" is processed by `makeMetrics` and afterwards the cache
maps A to "Alicia": the entry has been renamed. -/
theorem guidMap_entry_renamed :
    mapGet sampleData.GuidMap "A" = some "Alice" ∧
    ∃ d, (makeMetrics sampleEnv (answering aliciaBody) sampleData).result = .ok d ∧
      mapGet d.GuidMap "A" = some "Alicia" := by
  refine ⟨by decide, _, by rw [makeMetrics_answering], by decide⟩

/-- C7, as amended: a guid that is a key of the cache before a completed
`makeMetrics` run is still a key after it, and it is mapped to the same name
provided no entity of the lookup answer processed in the run carries that
guid. -/
theorem guidMap_entries_persist {F : Type} (env : GoEnv F) (client : Client)
    (data d : AccountData F) (g n : String)
    (hrun : (makeMetrics env client data).result = .ok d)
    (hg : mapGet data.GuidMap g = some n) :
    (mapGet d.GuidMap g).isSome = true ∧
    ((∀ x ∈ lookupEntities env client data, x.Guid ≠ g) → mapGet d.GuidMap g = some n) := by
  rw [makeMetrics_result env client data d hrun]
  constructor
  · exact resolveLoop_cache_isSome _ _ g (by simp [hg])
  · intro h
    have := (resolveLoop_other (lookupEntities env client data)
      (data.GuidMap, (aggregate env data).metricMap) g h).1
    simpa [hg] using this

/-- C7, instance: with the cache {A: "Alice"} and a lookup answer naming B
as "Bob", the run completes with the cache {A: "Alice", B: "Bob"} and A is
still mapped to "Alice". -/
theorem guidMap_entries_persist_witness :
    (makeMetrics sampleEnv (answering bobBody) sampleData).result =
      .ok { sampleData with GuidMap := [("A", "Alice"), ("B", "Bob")] } ∧
    mapGet sampleData.GuidMap "A" = some "Alice" ∧
    mapGet ({ sampleData with GuidMap := [("A", "Alice"), ("B", "Bob")] } :
      AccountData Int).GuidMap "A" = some "Alice" :=
  ⟨by rw [makeMetrics_answering]; rfl, by decide,
    (guidMap_entries_persist sampleEnv (answering bobBody) sampleData
      { sampleData with GuidMap := [("A", "Alice"), ("B", "Bob")] } "A" "Alice"
      (by rw [makeMetrics_answering]; rfl) (by decide)).2
      (by
        have he : lookupEntities sampleEnv (answering bobBody) sampleData =
            [⟨"Bob", "B"⟩] := by
          simp only [lookupEntities, lookupBody_answering]
          decide
        rw [he]
        decide)⟩

/-! ## Parse errors of the lookup answer -/

/-- When the lookup returned a body, the publish step is reached with the
sample map the resolution loop leaves. -/
theorem makeMetrics_calls_of_body {F : Type} (env : GoEnv F) (client : Client)
    (data : AccountData F) (b : String) (hb : lookupBody env client data = some b) :
    (makeMetrics env client data).calls =
      lookupCall env client data (aggregate env data) ::
        (publishMetrics env client data
          (resolveLoop (env.unmarshal b).1.Data.Actor.Entities
            (data.GuidMap, (aggregate env data).metricMap)).2).calls := by
  simp only [makeMetrics, lookupNames_of_body env client data b hb]
  split <;> rfl

/-- C8, counterexample: the lookup answer is well-formed JSON with a number
in place of the name of C; `json.Unmarshal` reports an error after storing
the entities it could decode, and `makeMetrics` still runs the resolution loop
over them: B, which was not cached, is cached as "Bob", C is cached with the
empty name, and the published samples of B and C no longer carry their guids
as names. -/
theorem parse_error_still_resolves :
    lookupBody sampleEnv (answering mistypedBody) sampleData = some mistypedBody ∧
    (sampleEnv.unmarshal mistypedBody).2 = true ∧
    mapGet sampleData.GuidMap "B" = none ∧
    (makeMetrics sampleEnv (answering mistypedBody) sampleData).result =
      .ok { sampleData with GuidMap := [("A", "Alice"), ("B", "Bob"), ("C", "")] } ∧
    (makeMetrics sampleEnv (answering mistypedBody) sampleData).calls.map (fun c => c.data) =
      ["\x7bactor \x7bentities(guids: [\"B\",\"C\"]) \x7bname guid type\x7d\x7d\x7d",
        "A=Alice,B=Bob,C="] := by
  refine ⟨lookupBody_answering _, by decide, by decide, ?_, ?_⟩
  · rw [makeMetrics_answering]
    rfl
  · rw [makeMetrics_answering, lookupCall_answering _ _ _ _ (by decide),
      publishMetrics_answering _ _ _ _ (by decide)]
    decide

/-- C8, as amended: when `json.Unmarshal` reports an error for the lookup
answer, `makeMetrics` still runs the resolution loop over the entities the
decoder left in the result and then reaches the publish step; when the decoder
left no entity (as for an empty or syntactically invalid body) no entry is
added to the cache, every sample keeps its display name, and the publish step
is reached with the full, unchanged sample map. -/
theorem parse_error_keeps_cycle {F : Type} (env : GoEnv F) (client : Client)
    (data : AccountData F) (b : String)
    (hb : lookupBody env client data = some b) (herr : (env.unmarshal b).2 = true) :
    (lookupNames env client data (aggregate env data)).result =
      .ok (resolveLoop (env.unmarshal b).1.Data.Actor.Entities
        (data.GuidMap, (aggregate env data).metricMap)) ∧
    (makeMetrics env client data).calls =
      lookupCall env client data (aggregate env data) ::
        (publishMetrics env client data
          (resolveLoop (env.unmarshal b).1.Data.Actor.Entities
            (data.GuidMap, (aggregate env data).metricMap)).2).calls ∧
    ((env.unmarshal b).1.Data.Actor.Entities = [] →
      (lookupNames env client data (aggregate env data)).result =
        .ok (data.GuidMap, (aggregate env data).metricMap) ∧
      (makeMetrics env client data).calls =
        lookupCall env client data (aggregate env data) ::
          (publishMetrics env client data (aggregate env data).metricMap).calls ∧
      ∀ d, (makeMetrics env client data).result = .ok d → d = data) := by
  have _ := herr
  refine ⟨by rw [lookupNames_of_body env client data b hb],
    makeMetrics_calls_of_body env client data b hb, fun hnil => ⟨?_, ?_, ?_⟩⟩
  · rw [lookupNames_of_body env client data b hb, hnil, resolveLoop_nil]
  · rw [makeMetrics_calls_of_body env client data b hb, hnil, resolveLoop_nil]
  · intro d hd
    rw [makeMetrics_result env client data d hd]
    simp [lookupEntities, hb, hnil, resolveLoop_nil]

/-- C8, instance: the lookup is answered with bytes that are not JSON; the
parse reports an error, the cache stays {A: "Alice"}, and the three samples
are published with A named "Alice" and B and C named by their guids. -/
theorem parse_error_keeps_cycle_witness :
    lookupBody sampleEnv (answering "<html>") sampleData = some "<html>" ∧
    (sampleEnv.unmarshal "<html>").2 = true ∧
    (lookupNames sampleEnv (answering "<html>") sampleData
        (aggregate sampleEnv sampleData)).result =
      .ok (sampleData.GuidMap, (aggregate sampleEnv sampleData).metricMap) ∧
    (makeMetrics sampleEnv (answering "<html>") sampleData).calls =
      lookupCall sampleEnv (answering "<html>") sampleData (aggregate sampleEnv sampleData) ::
        (publishMetrics sampleEnv (answering "<html>") sampleData
          (aggregate sampleEnv sampleData).metricMap).calls ∧
    ∀ d, (makeMetrics sampleEnv (answering "<html>") sampleData).result = .ok d →
      d = sampleData :=
  ⟨lookupBody_answering _, by decide,
    (parse_error_keeps_cycle sampleEnv (answering "<html>") sampleData "<html>"
      (lookupBody_answering _) (by decide)).2.2 (by decide)⟩

/-! ## The publish step -/

theorem foldl_collect {F : Type} (l : GoMap (Metric F)) (init : List (Metric F)) :
    l.foldl (fun metrics kv => metrics ++ [kv.2]) init = init ++ l.map Prod.snd := by
  induction l generalizing init with
  | nil => simp
  | cons p t ih => simp [ih]

theorem collectMetrics_perm {F : Type} (env : GoEnv F) (metricMap : GoMap (Metric F)) :
    (collectMetrics env metricMap).Perm (metricMap.map Prod.snd) := by
  unfold collectMetrics
  rw [foldl_collect, List.nil_append]
  exact (env.rangeOrder_perm metricMap).map _

theorem aggregate_of_empty {F : Type} (env : GoEnv F) (data : AccountData F)
    (h : (aggregate env data).metricMap = []) : (aggregate env data).guids = [] := by
  have hk := aggregate_fold_keys env data data.Response ⟨[], []⟩ (by simp [mapKeys])
  have hr : data.Response = [] := by
    cases hresp : data.Response with
    | nil => rfl
    | cons e t =>
      have := (hk.2 e.Guid).mpr (Or.inr (by simp [hresp]))
      unfold aggregate at h
      rw [h] at this
      simp [mapKeys] at this
  simp [aggregate, hr]

/-- C9: when the sample map is empty the publish step invokes `retryQuery`
not at all (and a `makeMetrics` run whose first loop builds no sample makes no
network call whatsoever); when it is not empty the publish step invokes
`retryQuery` exactly once, for the metric endpoint, with the marshalled
one-element array holding one payload that carries all the samples. -/
theorem publishMetrics_calls {F : Type} (env : GoEnv F) (client : Client)
    (data : AccountData F) (metricMap : GoMap (Metric F)) :
    (metricMap = [] → (publishMetrics env client data metricMap).calls = []) ∧
    ((aggregate env data).metricMap = [] → (makeMetrics env client data).calls = []) ∧
    (metricMap ≠ [] → ∃ metrics : List (Metric F),
      metrics.Perm (metricMap.map Prod.snd) ∧
      (publishMetrics env client data metricMap).calls =
        [invoke client "POST" MetricEndoint
          (env.marshalMetrics [{ Metrics := metrics }]) data.MetricHeaders]) := by
  have hempty : ∀ (d : AccountData F),
      (publishMetrics env client d ([] : GoMap (Metric F))).calls = [] := by
    intro d
    have hp := collectMetrics_perm env ([] : GoMap (Metric F))
    have hc : collectMetrics env ([] : GoMap (Metric F)) = [] := by simpa using hp
    simp [publishMetrics, hc]
  refine ⟨fun h => h ▸ hempty data, ?_, ?_⟩
  · intro h
    have hg := aggregate_of_empty env data h
    have hl : lookupNames env client data (aggregate env data) =
        ⟨[], .ok (data.GuidMap, [])⟩ := by
      simp [lookupNames, hg, h]
    simp only [makeMetrics, hl]
    have := hempty { data with GuidMap := data.GuidMap }
    split <;> simp [this]
  · intro hne
    refine ⟨collectMetrics env metricMap, collectMetrics_perm env metricMap, ?_⟩
    have hlen : (collectMetrics env metricMap).length ≠ 0 := by
      rw [(collectMetrics_perm env metricMap).length_eq]
      simpa using hne
    simp only [publishMetrics, if_neg hlen]
    split <;> rfl

/-- C9, instance: the three samples of the sample data are published by one
`retryQuery` invocation whose payload holds all three; an empty sample map
is not published. -/
theorem publishMetrics_calls_witness :
    (∃ metrics : List (Metric Int),
      metrics.Perm ((aggregate sampleEnv sampleData).metricMap.map Prod.snd) ∧
      (publishMetrics sampleEnv (answering bobBody) sampleData
          (aggregate sampleEnv sampleData).metricMap).calls =
        [invoke (answering bobBody) "POST" MetricEndoint
          (sampleEnv.marshalMetrics [{ Metrics := metrics }]) sampleData.MetricHeaders]) ∧
    (publishMetrics sampleEnv (answering bobBody) sampleData []).calls = [] :=
  ⟨(publishMetrics_calls sampleEnv (answering bobBody) sampleData
      (aggregate sampleEnv sampleData).metricMap).2.2 (by decide),
    (publishMetrics_calls sampleEnv (answering bobBody) sampleData []).1 rfl⟩

/-! ## The poll loop -/

theorem wrap64_of_range (x : Int) (hlo : -2 ^ 63 ≤ x) (hhi : x < 2 ^ 63) : wrap64 x = x := by
  unfold wrap64
  rw [Int.emod_eq_of_lt (by omega) (by omega)]
  omega

/-- C10, counterexample: with the poll interval -9223372036854775808 ns (the
value `time.ParseDuration` returns for "-9223372036854775808ns") and one
nanosecond elapsed, the 64 bit subtraction wraps around and the loop sleeps
9223372036854775807 ns, while max(0, interval - elapsed) is 0.  The same
happens with the interval "-2562047h47m16s" and a cycle of three seconds. -/
theorem pollSleep_wraps :
    pollSleep (-9223372036854775808) 1 = some 9223372036854775807 ∧
    sleepTime (-9223372036854775808) 1 ≠ max 0 (-9223372036854775808 - 1) ∧
    sleepTime (-9223372036000000000) 3000000000 = 9223372034709551616 ∧
    max 0 ((-9223372036000000000 : Int) - 3000000000) = 0 := by
  refine ⟨?_, ?_, ?_, ?_⟩ <;> decide

/-- C10, as amended: whenever the difference of the poll interval and the
elapsed cycle time is representable as a 64 bit duration, the poll loop sleeps
max(0, interval - elapsed): it sleeps interval - elapsed when that is
positive and does not sleep at all when elapsed >= interval. -/
theorem sleepTime_eq_max (PollInterval elapsed : Int)
    (hlo : -2 ^ 63 ≤ PollInterval - elapsed) (hhi : PollInterval - elapsed < 2 ^ 63) :
    sleepTime PollInterval elapsed = max 0 (PollInterval - elapsed) ∧
    (0 < PollInterval - elapsed →
      pollSleep PollInterval elapsed = some (PollInterval - elapsed)) ∧
    (PollInterval ≤ elapsed → pollSleep PollInterval elapsed = none) := by
  have hw := wrap64_of_range _ hlo hhi
  refine ⟨?_, ?_, ?_⟩
  · unfold sleepTime pollSleep
    simp only [hw]
    by_cases h : PollInterval - elapsed > 0
    · simp only [if_pos h]
      omega
    · simp only [if_neg h]
      omega
  · intro h
    unfold pollSleep
    simp only [hw]
    rw [if_pos h]
  · intro h
    unfold pollSleep
    simp only [hw]
    rw [if_neg (by omega)]

/-- C10, instance: a 5 minute interval and a 4 second cycle give a sleep of
4 minutes 56 seconds; a 6 minute cycle gives no sleep. -/
theorem sleepTime_eq_max_witness :
    (sleepTime 300000000000 4000000000 = max 0 (300000000000 - 4000000000) ∧
      (0 < (300000000000 : Int) - 4000000000 →
        pollSleep 300000000000 4000000000 = some (300000000000 - 4000000000)) ∧
      ((300000000000 : Int) ≤ 4000000000 → pollSleep 300000000000 4000000000 = none)) ∧
    pollSleep 300000000000 360000000000 = none :=
  ⟨sleepTime_eq_max 300000000000 4000000000 (by decide) (by decide),
    (sleepTime_eq_max 300000000000 360000000000 (by decide) (by decide)).2.2 (by decide)⟩

/-- C6, the code at the failing input: `postServiceEndpoint` leaves
`data.Response` as it is when the fetch fails.  In the first cycle one raw
summary of B is fetched and published; in the next cycle the fetch fails, and
`makeMetrics` builds a sample from the B record of the first cycle, stamps it
with the time of the new cycle and publishes it again. -/
theorem failed_fetch_republishes_old_records :
    (∀ (t : Int) (data : AccountData Int),
      (postServiceEndpoint t none data).Response = data.Response) ∧
    ∃ d, (pollCycle sampleEnv firstCycle freshData).data = .ok d ∧
      d.Response = [sampleEntity "B" 10 25] ∧
      (aggregate sampleEnv (postServiceEndpoint failedCycle.currentTime failedCycle.fetch
          { d with SampleTime := failedCycle.startUnix })).metricMap =
        [("B", { Name := "exclusiveDuration", MetricType := "gauge", Value := 25,
                 Timestamp := 5300000,
                 Attributes := { Name := "Bob", Depth := 1, Guid := "B" } })] ∧
      (pollCycle sampleEnv failedCycle d).calls.map (fun c => (c.url, c.data)) =
        [(MetricEndoint, "B=Bob")] := by
  refine ⟨fun t data => rfl, ?_⟩
  have h1 : (pollCycle sampleEnv firstCycle freshData).data =
      .ok { freshData with
        GuidMap := [("B", "Bob")]
        Response := [sampleEntity "B" 10 25]
        SampleTime := 5000
        Details := ⟨"ROOT", 5000000, 1400000, 3600000⟩ } := by
    simp only [pollCycle, firstCycle]
    rw [makeMetrics_answering_of_guids _ _ _ (by decide) (by decide) (by decide)]
    rfl
  refine ⟨_, h1, rfl, by decide, ?_⟩
  simp only [pollCycle, failedCycle]
  rw [makeMetrics_answering_of_cached _ _ _ (by decide) (by decide),
    publishMetrics_answering _ _ _ _ (by decide)]
  decide

end DtExclusiveMetric
